/-
Verification of the console snippet manager (src/snippet.js) against its
natural-language specification.

The program is embedded shallowly: each JS function becomes a pure Lean
function over explicit data.  File-system effects are modelled by an
explicit file-state type; JSON serialization is modelled at the level of a
JSON value tree (the text layer, JSON.stringify / JSON.parse of the
runtime, is assumed to round-trip values exactly, which it does for the
records this program writes).  Strings are Lean strings; the character
level helpers (split on a character, trim, lower-casing, parseInt) are
written as structural recursions over the character list so that the
kernel can evaluate them on concrete inputs.
-/
import Mathlib

namespace SnippetManager

/-! ## Character-level helpers (models of the JS string primitives used) -/

/-- Whitespace as trimmed by JavaScript String.prototype.trim, restricted to
the ASCII whitespace actually relevant here. -/
def isWsChar (c : Char) : Bool :=
  c = ' ' || c = '\t' || c = '\n' || c = '\r'

/-- Model of JS String.prototype.split with a single-character separator:
splits the character list at every occurrence of the separator, keeping
empty segments (as JS does). -/
def splitChar (sep : Char) : List Char → List (List Char)
  | [] => [[]]
  | c :: rest =>
    if c = sep then [] :: splitChar sep rest
    else
      match splitChar sep rest with
      | t :: ts => (c :: t) :: ts
      | [] => [[c]]

/-- Model of JS String.prototype.trim on a character list: drop whitespace
from both ends. -/
def trimChars (l : List Char) : List Char :=
  ((l.dropWhile isWsChar).reverse.dropWhile isWsChar).reverse

/-- Trim of a string, via `trimChars`. -/
def trimStr (s : String) : String :=
  String.mk (trimChars s.toList)

/-- Model of JS String.prototype.toLowerCase restricted to ASCII letters
(the only case-insensitivity the spec exercises). -/
def lowerChar (c : Char) : Char :=
  if 'A' ≤ c && c ≤ 'Z' then Char.ofNat (c.toNat + 32) else c

/-- Lower-casing of a string. -/
def lowerStr (s : String) : String :=
  String.mk (s.toList.map lowerChar)

/-- Hexadecimal digit test. -/
def isHexDigit (c : Char) : Bool :=
  c.isDigit || ('a' ≤ c && c ≤ 'f') || ('A' ≤ c && c ≤ 'F')

/-- Value of one digit, hexadecimal letters included. -/
def digitVal (c : Char) : Nat :=
  if c.isDigit then c.toNat - 48
  else if 'a' ≤ c && c ≤ 'f' then c.toNat - 87
  else c.toNat - 55

/-- Numeric value of a run of digits in the given base. -/
def digitsVal (base : Nat) (l : List Char) : Nat :=
  l.foldl (fun a c => a * base + digitVal c) 0

/-- Model of JS parseInt called with no radix argument (ECMAScript
ToInt32-free path): skip leading whitespace, read an optional sign, then —
the radix being undefined — a prefix 0x or 0X selects radix 16 and is
skipped, otherwise the radix is 10; the value is the maximal run of digits
of that radix, and `none` stands for NaN (no digits found). -/
def parseIntJs (s : String) : Option Int :=
  let cs := s.toList.dropWhile isWsChar
  let signed : Int × List Char :=
    match cs with
    | '-' :: r => (-1, r)
    | '+' :: r => (1, r)
    | _ => (1, cs)
  let based : Nat × List Char :=
    match signed.2 with
    | '0' :: 'x' :: r => (16, r)
    | '0' :: 'X' :: r => (16, r)
    | r => (10, r)
  let digits := based.2.takeWhile (fun c => if based.1 = 16 then isHexDigit c else c.isDigit)
  if digits.isEmpty then none
  else some (signed.1 * (digitsVal based.1 digits : Int))

/-! ## Data model: the snippet record (spec section 3, src/snippet.js lines 70-74) -/

/-- One snippet record as stored in the backing file. -/
structure Snippet where
  id : Int
  title : String
  code : String
  language : String
  tags : List String
  category : String
  description : String
  createdAt : String
deriving DecidableEq, Repr

/-! ## Tag parsing (src/snippet.js line 54)

`filter: input => input.split(',').map(tag => tag.trim()).filter(tag => tag)` -/

/-- The tag-input filter of the add prompt: split the raw input on commas,
trim each token, drop tokens that are empty (falsy) after trimming. -/
def parseTags (input : String) : List String :=
  (((splitChar ',' input.toList).map trimChars).map String.mk).filter (fun t => t ≠ "")

/-! ## JSON values and the backing file (src/snippet.js lines 12-27)

`fs.readJson` / `fs.writeJson` parse and print JSON text; we model the
parsed value tree. -/

/-- A JSON value.  Numbers are restricted to integers, which covers every
number this program writes (record ids). -/
inductive Json where
  | null
  | bool (b : Bool)
  | num (n : Int)
  | str (s : String)
  | arr (elems : List Json)
  | obj (fields : List (String × Json))

/-- State of a file on disk as seen by `fs.readJson`: absent, present but
unreadable, present but not syntactically valid JSON, or valid JSON with
the given parsed value. -/
inductive FileState where
  | absent
  | unreadable
  | invalidJson
  | validJson (v : Json)

/-- Model of `fs.readJson`: a missing, unreadable or unparsable file is an
error (thrown in JS, `Except.error` here); otherwise the parsed value. -/
def readJsonFile : FileState → Except Unit Json
  | .absent => .error ()
  | .unreadable => .error ()
  | .invalidJson => .error ()
  | .validJson v => .ok v

/-- Model of `loadSnippets` (src/snippet.js lines 15-21): try to read the backing
file; any error is caught and replaced by the empty array.  The function
is total — no error escapes to the caller. -/
def loadSnippets (fs : FileState) : Json :=
  match readJsonFile fs with
  | .ok v => v
  | .error _ => .arr []

/-- Reading a file does not change it: the load call with explicit state
threading, used to talk about repeated calls. -/
def loadSnippetsCall (fs : FileState) : Json × FileState :=
  (loadSnippets fs, fs)

/-- The results of `n` successive calls of `loadSnippets` against the same
store, each call running on the file state the previous one left behind. -/
def loadCalls : Nat → FileState → List Json
  | 0, _ => []
  | n + 1, fs =>
    let r := loadSnippetsCall fs
    r.1 :: loadCalls n r.2

/-! ## Encoding and decoding snippet records as JSON -/

/-- The JSON object `fs.writeJson` receives for one record (the field
order of the object literal at src/snippet.js lines 70-74). -/
def encodeSnippet (s : Snippet) : Json :=
  .obj [("id", .num s.id), ("title", .str s.title), ("code", .str s.code),
        ("language", .str s.language), ("tags", .arr (s.tags.map .str)),
        ("category", .str s.category), ("description", .str s.description),
        ("createdAt", .str s.createdAt)]

/-- The JSON array holding the whole collection. -/
def encodeSnippets (l : List Snippet) : Json :=
  .arr (l.map encodeSnippet)

/-- Key lookup in a JSON object's field list. -/
def lookupPairs : List (String × Json) → String → Option Json
  | [], _ => none
  | (k, v) :: rest, key => if k = key then some v else lookupPairs rest key

/-- Field access on a JSON value. -/
def getField (j : Json) (key : String) : Option Json :=
  match j with
  | .obj fields => lookupPairs fields key
  | _ => none

/-- Read a JSON value as a string. -/
def asStr : Json → Option String
  | .str s => some s
  | _ => none

/-- Read a JSON value as an integer. -/
def asInt : Json → Option Int
  | .num n => some n
  | _ => none

/-- Decode every element of a list, failing if any element fails. -/
def decodeList (f : Json → Option α) : List Json → Option (List α)
  | [] => some []
  | j :: rest => do
    let a ← f j
    let as ← decodeList f rest
    pure (a :: as)

/-- Read a JSON value as a list of strings. -/
def asStrList : Json → Option (List String)
  | .arr xs => decodeList asStr xs
  | _ => none

/-- The typed view of one parsed record: the JS code uses the parsed
object's fields directly; this function states which shape it relies on. -/
def decodeSnippet (j : Json) : Option Snippet := do
  let id ← asInt (← getField j "id")
  let title ← asStr (← getField j "title")
  let code ← asStr (← getField j "code")
  let language ← asStr (← getField j "language")
  let tags ← asStrList (← getField j "tags")
  let category ← asStr (← getField j "category")
  let description ← asStr (← getField j "description")
  let createdAt ← asStr (← getField j "createdAt")
  pure ⟨id, title, code, language, tags, category, description, createdAt⟩

/-- The typed view of a parsed collection. -/
def decodeSnippets (j : Json) : Option (List Snippet) :=
  match j with
  | .arr xs => decodeList decodeSnippet xs
  | _ => none

/-! ## Add (src/snippet.js lines 30-78) -/

/-- The answers the interactive prompts of `addSnippet` deliver; the tags
answer has already gone through `parseTags` (the prompt's filter). -/
structure AddAnswers where
  title : String
  code : String
  language : String
  tags : List String
  category : String
  description : String
deriving DecidableEq, Repr

/-- The title prompt's validation (src/snippet.js line 36):
`input => (input ? true : 'Title is required')`.  `ok` is JS `true`, `err`
the re-prompt message. -/
inductive ValidateResult where
  | ok
  | err (msg : String)
deriving DecidableEq, Repr

/-- Title validation: the empty string is the only falsy string. -/
def validateTitle (input : String) : ValidateResult :=
  if input = "" then .err "Title is required" else .ok

/-- The mutation of `addSnippet` (src/snippet.js lines 69-74): push one new
record whose id is `snippets.length + 1` and whose other fields are the
answers verbatim, with the creation timestamp. -/
def addSnippet (snippets : List Snippet) (answers : AddAnswers) (now : String) : List Snippet :=
  snippets ++ [{ id := (snippets.length : Int) + 1
                 title := answers.title
                 code := answers.code
                 language := answers.language
                 tags := answers.tags
                 category := answers.category
                 description := answers.description
                 createdAt := now }]

/-! ## Search: the clipboard-copy prompt (src/snippet.js lines 103-119) -/

/-- Outcome of answering the copy prompt: skipped silently (blank answer),
a copy to the clipboard plus a confirmation line, or an error line with
nothing copied. -/
inductive CopyOutcome where
  | skipped
  | copied (code : String) (message : String)
  | invalid (message : String)
deriving DecidableEq, Repr

/-- What `searchSnippets` does with the copy-prompt answer: a falsy
(empty) answer skips; otherwise `snippets.find(s => s.id === parseInt(copyId))`
either copies that record's code and confirms with its title, or reports
an invalid id.  A NaN from parseInt matches no record (`===` with NaN is
always false). -/
def handleCopy (snippets : List Snippet) (copyId : String) : CopyOutcome :=
  if copyId = "" then .skipped
  else
    match parseIntJs copyId with
    | none => .invalid "Invalid snippet ID."
    | some n =>
      match snippets.find? (fun s => s.id = n) with
      | some s => .copied s.code ("Snippet \"" ++ s.title ++ "\" copied to clipboard!")
      | none => .invalid "Invalid snippet ID."

/-- The record the prompt answer resolves to, if any: the parseInt value
looked up among the records' ids. -/
def resolveId (snippets : List Snippet) (copyId : String) : Option Snippet :=
  match parseIntJs copyId with
  | none => none
  | some n => snippets.find? (fun s => s.id = n)

/-! ## List (src/snippet.js lines 123-145) -/

/-- The two commander options of the `list` command; `none` stands for an
option not supplied on the command line. -/
structure ListOptions where
  lang : Option String
  category : Option String
deriving DecidableEq, Repr

/-- JS truthiness of an optional string option: `if (options.lang)` runs
its branch only for a present, non-empty value. -/
def truthyOpt : Option String → Option String
  | some s => if s = "" then none else some s
  | none => none

/-- The two sequential filter passes of `listSnippets` (lines 127-132),
exactly as the code chains them. -/
def listFiltered (opts : ListOptions) (snippets : List Snippet) : List Snippet :=
  let f1 :=
    match truthyOpt opts.lang with
    | some l => snippets.filter (fun s => lowerStr s.language = lowerStr l)
    | none => snippets
  match truthyOpt opts.category with
  | some c => f1.filter (fun s => lowerStr s.category = lowerStr c)
  | none => f1

/-- One listing entry of a record (lines 139-144): id, title, language,
category, comma-joined tags, then the divider. -/
def listLines (s : Snippet) : List String :=
  ["[" ++ toString s.id ++ "] " ++ s.title ++ " (" ++ s.language ++ ")",
   "  Category: " ++ s.category,
   "  Tags: " ++ String.intercalate ", " s.tags,
   "---"]

/-- Console output of `listSnippets`: the not-found notice when the
filtered result is empty, otherwise one entry per surviving record in
collection order. -/
def listSnippets (opts : ListOptions) (snippets : List Snippet) : List String :=
  let filtered := listFiltered opts snippets
  if filtered.isEmpty then ["No snippets found."]
  else (filtered.map listLines).flatten

/-- The predicate the spec states for the combined filters: a supplied
filter must match case-insensitively, a missing filter is skipped, both
must hold together. -/
def matchesFilters (opts : ListOptions) (s : Snippet) : Bool :=
  (match truthyOpt opts.lang with
   | some l => lowerStr s.language = lowerStr l
   | none => true) &&
  (match truthyOpt opts.category with
   | some c => lowerStr s.category = lowerStr c
   | none => true)

/-! ## Export (src/snippet.js lines 148-168) -/

/-- The markdown section one record contributes (lines 156-161): heading
with the title, language, category, comma-joined tags, description with
the falsy default "None", and the code fenced with the record's language
as info string. -/
def snippetMarkdown (s : Snippet) : String :=
  "## " ++ s.title ++ "\n" ++
  "- **Language**: " ++ s.language ++ "\n" ++
  "- **Category**: " ++ s.category ++ "\n" ++
  "- **Tags**: " ++ String.intercalate ", " s.tags ++ "\n" ++
  "- **Description**: " ++ (if s.description = "" then "None" else s.description) ++ "\n" ++
  "```" ++ s.language ++ "\n" ++ s.code ++ "\n```\n\n"

/-- The markdown document (lines 154-162): the header, then the sections
accumulated over the records with `forEach`/`+=`. -/
def markdownExport (snippets : List Snippet) : String :=
  snippets.foldl (fun acc s => acc ++ snippetMarkdown s) "# Code Snippets\n\n"

/-- Observable effects of one `exportSnippets` call: the contents written
to `snippets-export.json`, to `snippets-export.md`, any write to the
backing store, and the console message. -/
structure ExportResult where
  jsonFile : Option Json
  mdFile : Option String
  backingWrite : Option (List Snippet)
  message : String

/-- Model of `exportSnippets` (lines 148-168) on the loaded collection.  No branch
calls `saveSnippets`, so `backingWrite` is `none` throughout. -/
def exportSnippets (format : String) (snippets : List Snippet) : ExportResult :=
  if format = "json" then
    { jsonFile := some (encodeSnippets snippets)
      mdFile := none
      backingWrite := none
      message := "Snippets exported to snippets-export.json" }
  else if format = "markdown" then
    { jsonFile := none
      mdFile := some (markdownExport snippets)
      backingWrite := none
      message := "Snippets exported to snippets-export.md" }
  else
    { jsonFile := none
      mdFile := none
      backingWrite := none
      message := "Unsupported format. Use \"json\" or \"markdown\"." }

/-! ## Concrete fixtures used by witnesses and counterexamples -/

/-- A record as an external actor could have put it in the backing file:
its id is 2 although it is the only record. -/
def strayRecord : Snippet :=
  { id := 2
    title := "stray"
    code := "x"
    language := "javascript"
    tags := []
    category := "General"
    description := ""
    createdAt := "2026-01-01T00:00:00.000Z" }

/-- A record with the canonical first id. -/
def demoRecord : Snippet :=
  { id := 1
    title := "T"
    code := "c"
    language := "javascript"
    tags := ["utils", "js"]
    category := "General"
    description := ""
    createdAt := "2026-01-01T00:00:00.000Z" }

/-- A fixed set of prompt answers. -/
def demoAnswers : AddAnswers :=
  { title := "t"
    code := "c"
    language := "javascript"
    tags := []
    category := "General"
    description := "" }

/-! ## Helper lemmas -/

/-- Concatenation of a list of strings. -/
def concatStrs : List String → String
  | [] => ""
  | s :: rest => s ++ concatStrs rest

theorem strAppend_empty (a : String) : a ++ "" = a :=
  String.append_empty a

theorem strAppend_assoc (a b c : String) : a ++ b ++ c = a ++ (b ++ c) :=
  String.append_assoc a b c

theorem foldl_append_concatStrs (f : α → String) (l : List α) (acc : String) :
    l.foldl (fun a s => a ++ f s) acc = acc ++ concatStrs (l.map f) := by
  induction l generalizing acc with
  | nil => simp [concatStrs, strAppend_empty]
  | cons x xs ih =>
    simp only [List.foldl_cons, List.map_cons, concatStrs]
    rw [ih, strAppend_assoc]

theorem decodeList_asStr_map (l : List String) :
    decodeList asStr (l.map Json.str) = some l := by
  induction l with
  | nil => rfl
  | cons x xs ih => simp [decodeList, asStr, ih]

theorem decodeSnippet_encodeSnippet (s : Snippet) :
    decodeSnippet (encodeSnippet s) = some s := by
  simp [decodeSnippet, encodeSnippet, getField, lookupPairs, asInt, asStr, asStrList,
        decodeList_asStr_map]

theorem pairwise_lt_canonical (n : Nat) :
    ((List.range n).map (fun i : Nat => (i : Int) + 1)).Pairwise (fun a b => a < b) := by
  induction n with
  | zero => simp
  | succ k ih =>
    rw [List.range_succ, List.map_append]
    refine List.pairwise_append.2 ⟨ih, by simp, ?_⟩
    intro x hx y hy
    simp only [List.mem_map, List.mem_range] at hx
    simp only [List.map_cons, List.map_nil, List.mem_singleton] at hy
    obtain ⟨i, hi, rfl⟩ := hx
    subst hy
    show (i : Int) + 1 < (k : Int) + 1
    omega

theorem decodeSnippets_encodeSnippets (l : List Snippet) :
    decodeSnippets (encodeSnippets l) = some l := by
  induction l with
  | nil => rfl
  | cons x xs ih =>
    simp only [decodeSnippets, encodeSnippets, List.map_cons, decodeList,
      decodeSnippet_encodeSnippet, Option.bind_some] at ih ⊢
    simp [ih]

/-! ## Claim theorems -/

/-- C1: for every collection of N records, `addSnippet` appends exactly one
new record — the first N records are unchanged and the length grows by
one — and the appended record's id is N + 1, whatever ids the existing
records carry (the binder ranges over arbitrary collections). -/
theorem add_appends_one_with_next_id (snippets : List Snippet) (a : AddAnswers) (now : String) :
    (addSnippet snippets a now).length = snippets.length + 1 ∧
    (addSnippet snippets a now).take snippets.length = snippets ∧
    (addSnippet snippets a now).drop snippets.length =
      [{ id := (snippets.length : Int) + 1
         title := a.title
         code := a.code
         language := a.language
         tags := a.tags
         category := a.category
         description := a.description
         createdAt := now }] := by
  refine ⟨by simp [addSnippet], ?_, ?_⟩
  · simp [addSnippet, List.take_left']
  · simp [addSnippet, List.drop_left']

/-- C2: whenever reading the backing file fails — it is absent, unreadable
or not valid JSON — `loadSnippets` returns the empty array, on the first
call and on every repeated call (the file state is threaded through the
calls and reading never changes it).  `loadSnippets` is a total function:
the `try`/`catch` lets no error reach the caller. -/
theorem load_failure_yields_empty (fs : FileState) (h : readJsonFile fs = .error ()) (n : Nat) :
    loadCalls n fs = List.replicate n (Json.arr []) := by
  induction n with
  | zero => rfl
  | succ k ih =>
    simp [loadCalls, loadSnippetsCall, loadSnippets, h, ih, List.replicate_succ]

/-- Witness for C2: three successive loads against a store whose file is
absent all return the empty array. -/
theorem load_failure_yields_empty_witness :
    readJsonFile FileState.absent = .error () ∧
    loadCalls 3 FileState.absent = List.replicate 3 (Json.arr []) :=
  ⟨rfl, load_failure_yields_empty FileState.absent rfl 3⟩

/-- C3: the tag-input filter parses `"react, api, , hooks"` to
`["react", "api", "hooks"]`; and for every input, the parsed tags are a
sublist (order preserved) of the comma-split, trimmed tokens, and every
parsed tag is non-empty and is the trim of one of the comma-separated
segments of the input. -/
theorem parseTags_splits_trims_drops :
    parseTags "react, api, , hooks" = ["react", "api", "hooks"] ∧
    ∀ input : String,
      (parseTags input).Sublist (((splitChar ',' input.toList).map trimChars).map String.mk) ∧
      ∀ t ∈ parseTags input,
        t ≠ "" ∧ ∃ u ∈ splitChar ',' input.toList, t = String.mk (trimChars u) := by
  refine ⟨by decide, fun input => ⟨List.filter_sublist _, fun t ht => ?_⟩⟩
  rw [parseTags, List.mem_filter] at ht
  obtain ⟨hmem, hne⟩ := ht
  simp only [List.map_map, List.mem_map, Function.comp] at hmem
  obtain ⟨u, hu, rfl⟩ := hmem
  refine ⟨by simpa using hne, u, hu, rfl⟩

/-- Witness for C3: the tag "react" of the sample input is non-empty and
arises as the trim of a comma segment. -/
theorem parseTags_splits_trims_drops_witness :
    "react" ≠ "" ∧
    ∃ u ∈ splitChar ',' "react, api, , hooks".toList, "react" = String.mk (trimChars u) :=
  (parseTags_splits_trims_drops.2 "react, api, , hooks").2 "react" (by decide)

/-- C10: the title validator accepts exactly the non-empty strings — the
empty string is rejected with the re-prompt message, the whitespace-only
string "   " passes — and `addSnippet` stores the title answer verbatim,
with no trimming. -/
theorem title_validator_accepts_nonempty :
    (∀ s : String, validateTitle s = .ok ↔ s ≠ "") ∧
    validateTitle "" = .err "Title is required" ∧
    validateTitle "   " = .ok ∧
    (∀ snippets a now,
      (addSnippet snippets a now).map Snippet.title = snippets.map Snippet.title ++ [a.title]) := by
  refine ⟨fun s => ?_, by decide, by decide, fun snippets a now => by simp [addSnippet]⟩
  constructor
  · intro h hs
    rw [hs] at h
    simp [validateTitle] at h
  · intro h
    simp [validateTitle, h]

/-- Witness for C10: the whitespace-only title "   " is accepted and is
stored unchanged by the add operation. -/
theorem title_validator_accepts_nonempty_witness :
    (validateTitle "   " = .ok ↔ "   " ≠ "") ∧
    (addSnippet [] { demoAnswers with title := "   " } "now").map Snippet.title = ["   "] :=
  ⟨title_validator_accepts_nonempty.1 "   ",
   title_validator_accepts_nonempty.2.2.2 [] { demoAnswers with title := "   " } "now"⟩

/-- C4: the two sequential filter passes of `listSnippets` keep exactly
the records satisfying the conjunction of the supplied case-insensitive
filters (`matchesFilters`), skipping a filter that is not supplied —
`List.filter` preserves collection order by construction — and the
console output is the not-found notice when the filtered result is empty
and the per-record listing otherwise. -/
theorem list_filter_and_semantics (opts : ListOptions) (snippets : List Snippet) :
    listFiltered opts snippets = snippets.filter (matchesFilters opts) ∧
    listSnippets opts snippets =
      (if (snippets.filter (matchesFilters opts)).isEmpty then ["No snippets found."]
       else ((snippets.filter (matchesFilters opts)).map listLines).flatten) := by
  have hf : listFiltered opts snippets = snippets.filter (matchesFilters opts) := by
    have hcongr : snippets.filter (matchesFilters opts) = snippets.filter (fun s =>
        (match truthyOpt opts.lang with
         | some l => decide (lowerStr s.language = lowerStr l)
         | none => true) &&
        (match truthyOpt opts.category with
         | some c => decide (lowerStr s.category = lowerStr c)
         | none => true)) :=
      List.filter_congr (fun x _ => rfl)
    rw [hcongr]
    cases h1 : truthyOpt opts.lang <;> cases h2 : truthyOpt opts.category <;>
      simp [listFiltered, h1, h2, List.filter_filter, Bool.and_comm]
  exact ⟨hf, by rw [listSnippets, hf]⟩

/-- C5: exporting with format "json" writes exactly the JSON encoding of
the collection to the export file, and feeding that JSON back through the
loader and the record decoding recovers the original collection, identical
in content and order. -/
theorem export_then_load_roundtrip (l : List Snippet) :
    (exportSnippets "json" l).jsonFile = some (encodeSnippets l) ∧
    loadSnippets (FileState.validJson (encodeSnippets l)) = encodeSnippets l ∧
    decodeSnippets (loadSnippets (FileState.validJson (encodeSnippets l))) = some l :=
  ⟨rfl, rfl, decodeSnippets_encodeSnippets l⟩

/-- C6: for every format other than "json" and "markdown", `exportSnippets`
writes neither export file, writes nothing to the backing store, and
prints the unsupported-format message. -/
theorem export_unsupported_writes_nothing (format : String) (snippets : List Snippet)
    (h1 : format ≠ "json") (h2 : format ≠ "markdown") :
    (exportSnippets format snippets).jsonFile = none ∧
    (exportSnippets format snippets).mdFile = none ∧
    (exportSnippets format snippets).backingWrite = none ∧
    (exportSnippets format snippets).message = "Unsupported format. Use \"json\" or \"markdown\"." := by
  simp [exportSnippets, h1, h2]

/-- Witness for C6: format "yaml" on a one-record collection writes no
file and produces the unsupported-format message. -/
theorem export_unsupported_writes_nothing_witness :
    ("yaml" : String) ≠ "json" ∧ ("yaml" : String) ≠ "markdown" ∧
    (exportSnippets "yaml" [demoRecord]).jsonFile = none ∧
    (exportSnippets "yaml" [demoRecord]).mdFile = none ∧
    (exportSnippets "yaml" [demoRecord]).backingWrite = none ∧
    (exportSnippets "yaml" [demoRecord]).message = "Unsupported format. Use \"json\" or \"markdown\"." :=
  ⟨by decide, by decide,
   export_unsupported_writes_nothing "yaml" [demoRecord] (by decide) (by decide)⟩

/-- C8: the copy prompt of the search command: a blank answer skips
silently; a non-blank answer that resolves (via parseInt and id lookup) to
an existing record copies that record's code and confirms naming its
title; a non-blank answer that resolves to no record produces the error
message and copies nothing (the outcome carries no code). -/
theorem copy_prompt_behavior (snippets : List Snippet) (resp : String) :
    (resp = "" → handleCopy snippets resp = .skipped) ∧
    (∀ s, resp ≠ "" → resolveId snippets resp = some s →
      handleCopy snippets resp =
        .copied s.code ("Snippet \"" ++ s.title ++ "\" copied to clipboard!")) ∧
    (resp ≠ "" → resolveId snippets resp = none →
      handleCopy snippets resp = .invalid "Invalid snippet ID.") := by
  refine ⟨fun h => by simp [handleCopy, h], ?_, ?_⟩
  · intro s hne hres
    unfold resolveId at hres
    unfold handleCopy
    rw [if_neg hne]
    cases hp : parseIntJs resp with
    | none => rw [hp] at hres; simp at hres
    | some n =>
      rw [hp] at hres
      have hres' : List.find? (fun t => decide (t.id = n)) snippets = some s := hres
      show (match List.find? (fun t => decide (t.id = n)) snippets with
            | some t => CopyOutcome.copied t.code ("Snippet \"" ++ t.title ++ "\" copied to clipboard!")
            | none => CopyOutcome.invalid "Invalid snippet ID.")
          = CopyOutcome.copied s.code ("Snippet \"" ++ s.title ++ "\" copied to clipboard!")
      rw [hres']
  · intro hne hres
    unfold resolveId at hres
    unfold handleCopy
    rw [if_neg hne]
    cases hp : parseIntJs resp with
    | none => rfl
    | some n =>
      rw [hp] at hres
      have hres' : List.find? (fun t => decide (t.id = n)) snippets = none := hres
      show (match List.find? (fun t => decide (t.id = n)) snippets with
            | some t => CopyOutcome.copied t.code ("Snippet \"" ++ t.title ++ "\" copied to clipboard!")
            | none => CopyOutcome.invalid "Invalid snippet ID.")
          = CopyOutcome.invalid "Invalid snippet ID."
      rw [hres']

/-- Witness for C8: against a one-record collection, the blank answer
skips, the answer "1" copies that record's code with the confirmation
naming its title, the hexadecimal answer "0x1" resolves to id 1 and copies
as well (parseInt with no radix honors the 0x prefix), and the answer "9"
yields the invalid-id error. -/
theorem copy_prompt_behavior_witness :
    handleCopy [demoRecord] "" = .skipped ∧
    handleCopy [demoRecord] "1" =
      .copied demoRecord.code ("Snippet \"" ++ demoRecord.title ++ "\" copied to clipboard!") ∧
    handleCopy [demoRecord] "0x1" =
      .copied demoRecord.code ("Snippet \"" ++ demoRecord.title ++ "\" copied to clipboard!") ∧
    handleCopy [demoRecord] "9" = .invalid "Invalid snippet ID." :=
  ⟨(copy_prompt_behavior [demoRecord] "").1 rfl,
   (copy_prompt_behavior [demoRecord] "1").2.1 demoRecord (by decide) (by decide),
   (copy_prompt_behavior [demoRecord] "0x1").2.1 demoRecord (by decide) (by decide),
   (copy_prompt_behavior [demoRecord] "9").2.2 (by decide) (by decide)⟩

/-- C9: the markdown export is the fixed header followed, in collection
order, by one section per record consisting of a heading with the title,
the language, the category, the comma-joined tags, the description with
the literal "None" when it is empty, and the code body fenced with the
record's language as info string. -/
theorem markdown_export_structure (snippets : List Snippet) :
    markdownExport snippets =
      "# Code Snippets\n\n" ++
        concatStrs (snippets.map (fun s =>
          "## " ++ s.title ++ "\n" ++
          "- **Language**: " ++ s.language ++ "\n" ++
          "- **Category**: " ++ s.category ++ "\n" ++
          "- **Tags**: " ++ String.intercalate ", " s.tags ++ "\n" ++
          "- **Description**: " ++ (if s.description = "" then "None" else s.description) ++ "\n" ++
          "```" ++ s.language ++ "\n" ++ s.code ++ "\n```\n\n")) :=
  foldl_append_concatStrs snippetMarkdown snippets "# Code Snippets\n\n"

/-- The ids an add-only history produces: position i carries id i + 1. -/
def canonicalIds (l : List Snippet) : Prop :=
  l.map Snippet.id = (List.range l.length).map (fun i : Nat => (i : Int) + 1)

instance (l : List Snippet) : Decidable (canonicalIds l) := by
  unfold canonicalIds
  infer_instance

/-- C7 counterexample: a backing file can hold a record whose id is 2
although it is the only record; the loader accepts that file unchanged,
and adding a record to the loaded collection assigns id length + 1 = 2
again — the resulting ids [2, 2] are neither pairwise distinct nor
strictly increasing, so the invariant is not preserved for arbitrary
loaded id values. -/
theorem ids_invariant_fails_on_stray_file :
    decodeSnippets (loadSnippets (FileState.validJson (encodeSnippets [strayRecord])))
      = some [strayRecord] ∧
    ((addSnippet [strayRecord] demoAnswers "2026-01-02T00:00:00.000Z").map Snippet.id = [2, 2]) ∧
    ¬ ((addSnippet [strayRecord] demoAnswers "2026-01-02T00:00:00.000Z").map Snippet.id).Nodup ∧
    ¬ List.Chain' (fun a b => a < b)
        ((addSnippet [strayRecord] demoAnswers "2026-01-02T00:00:00.000Z").map Snippet.id) := by
  refine ⟨decodeSnippets_encodeSnippets [strayRecord], by decide, by decide, ?_⟩
  have h2 : (addSnippet [strayRecord] demoAnswers "2026-01-02T00:00:00.000Z").map Snippet.id
      = [2, 2] := by decide
  rw [h2]
  simp [List.chain'_cons]

/-- C7 amended: collections built by the Add operation alone — starting
from the empty collection `loadSnippets` yields for a missing file — carry
the canonical ids 1..N: the empty collection is canonical, `addSnippet`
preserves canonicity, and canonical ids are strictly increasing with
insertion order and pairwise distinct.  (A backing file edited from
outside may break this, as the counterexample shows.) -/
theorem ids_canonical_for_add_histories :
    canonicalIds ([] : List Snippet) ∧
    (∀ snippets a now, canonicalIds snippets → canonicalIds (addSnippet snippets a now)) ∧
    (∀ snippets, canonicalIds snippets →
      List.Chain' (fun a b => a < b) (snippets.map Snippet.id) ∧
      (snippets.map Snippet.id).Nodup) := by
  refine ⟨by decide, ?_, ?_⟩
  · intro snippets a now h
    unfold canonicalIds at h ⊢
    simp only [addSnippet, List.map_append, List.length_append, List.map_cons, List.map_nil,
      List.length_cons, List.length_nil, List.range_succ, List.map_append]
    rw [h]
  · intro snippets h
    unfold canonicalIds at h
    have hpair : (snippets.map Snippet.id).Pairwise (fun a b => a < b) := by
      rw [h]
      exact pairwise_lt_canonical snippets.length
    exact ⟨hpair.chain', hpair.imp (fun hab => ne_of_lt hab)⟩

/-- Witness for the amended C7: one add on the empty collection is
canonical and its ids are duplicate-free. -/
theorem ids_canonical_for_add_histories_witness :
    canonicalIds (addSnippet [] demoAnswers "2026-01-01T00:00:00.000Z") ∧
    ((addSnippet [] demoAnswers "2026-01-01T00:00:00.000Z").map Snippet.id).Nodup :=
  ⟨ids_canonical_for_add_histories.2.1 [] demoAnswers "2026-01-01T00:00:00.000Z"
     ids_canonical_for_add_histories.1,
   (ids_canonical_for_add_histories.2.2 (addSnippet [] demoAnswers "2026-01-01T00:00:00.000Z")
     (ids_canonical_for_add_histories.2.1 [] demoAnswers "2026-01-01T00:00:00.000Z"
       ids_canonical_for_add_histories.1)).2⟩

end SnippetManager
